import Mathlib

/-!
Verification of the task/session execution orchestrator of the
autocodit-agent backend.  The definitions below are shallow embeddings of
the Python sources under `src/backend`: the session and task status enums
(`app/models/session.py`, `app/models/task.py`), the session service
(`app/services/runner_service.py`), the Celery execution worker and its
monitoring loop (`app/workers/task_worker.py`), and the websocket
connection manager (`app/websocket/manager.py`).  Wall-clock times and
float quantities are modelled with `ℚ`; the runtime driver, which the code
only calls, enters the model as an oracle trace of poll observations.
-/

namespace AutoCodit

/-- Session lifecycle statuses, from `app/models/session.py` (`SessionStatus`):
exactly the six members INITIALIZING, RUNNING, COMPLETED, FAILED, CANCELLED,
TIMEOUT. -/
inductive SessionStatus
  | initializing
  | running
  | completed
  | failed
  | cancelled
  | timeout
deriving DecidableEq, Repr

/-- Task statuses, from `app/models/task.py` (`TaskStatus`): QUEUED, RUNNING,
COMPLETED, FAILED, CANCELLED, PAUSED.  Note that this enum has no TIMEOUT
member. -/
inductive TaskStatus
  | queued
  | running
  | completed
  | failed
  | cancelled
  | paused
deriving DecidableEq, Repr

/-- `Session.is_finished` from `app/models/session.py`: the four terminal
statuses. -/
def SessionStatus.is_finished : SessionStatus → Bool
  | .completed => true
  | .failed => true
  | .cancelled => true
  | .timeout => true
  | _ => false

/-- The fields of the `Session` model (`app/models/session.py`) that the
verified operations touch: status, the container handle, the completion
timestamp, and the step counters. -/
structure SessionRec where
  status : SessionStatus
  container_id : Option String
  completed_at : Option ℚ
  total_steps : Nat
  completed_steps : Nat
deriving DecidableEq, Repr

/-- Python division on floats: `ZeroDivisionError` is modelled as `none`. -/
def pydiv (a b : ℚ) : Option ℚ :=
  if b = 0 then none else some (a / b)

/-- `Session.success_rate` from `app/models/session.py` lines 118-123: return
0.0 when `total_steps == 0`, otherwise `completed_steps / total_steps`. -/
def SessionRec.success_rate (s : SessionRec) : Option ℚ :=
  if s.total_steps = 0 then some 0
  else pydiv (s.completed_steps : ℚ) (s.total_steps : ℚ)

/-- Result of `RunnerService.stop_session`: the (possibly updated) session
row, the `active_sessions` tracking map (keyed by session id), and the
returned boolean. -/
structure StopResult where
  session : Option SessionRec
  active_sessions : List String
  ok : Bool
deriving DecidableEq, Repr

/-- `RunnerService.stop_session` from `app/services/runner_service.py` lines
93-128: a session id that resolves to no row returns `False` and changes
nothing; otherwise the tracked container (if any) is stopped and dropped from
`active_sessions`, the session status is set to CANCELLED unconditionally —
whatever the current status — `completed_at` is stamped with the current time,
and `True` is returned. -/
def stop_session (now : ℚ) (sess : Option SessionRec) (session_id : String)
    (active_sessions : List String) : StopResult :=
  match sess with
  | none => { session := none, active_sessions := active_sessions, ok := false }
  | some s =>
      let active :=
        if s.container_id.isSome ∧ session_id ∈ active_sessions then
          active_sessions.erase session_id
        else active_sessions
      { session := some { s with status := SessionStatus.cancelled, completed_at := some now }
        active_sessions := active
        ok := true }

/-- The transition relation exactly as the specification words it:
`Initializing → Running → (Completed or Failed or Timeout)`, plus any
non-terminal state `→ Cancelled`.  Written from the specification for
comparison with the behaviour of the code. -/
def claimedTransition : SessionStatus → SessionStatus → Bool
  | .initializing, .running => true
  | .running, .completed => true
  | .running, .failed => true
  | .running, .timeout => true
  | s, .cancelled => !s.is_finished
  | _, _ => false

/-- The transition relation the code actually realises: the claimed relation
extended with cancellation out of any state, because `stop_session` sets
CANCELLED without checking whether the session is already terminal. -/
def amendedTransition (a b : SessionStatus) : Bool :=
  claimedTransition a b || b == SessionStatus.cancelled

/-- One status report from the runtime driver as the monitoring loop reads it
(`status.get("status")`, `status.get("exit_code", -1)` in
`app/workers/task_worker.py`); `logs` carries the lines that the
`get_runner_logs(session_id, tail=50)` call returns at that moment — the log
fetch itself is a runtime-driver call, treated as an oracle input. -/
structure RunnerReport where
  container_status : String
  exit_code : Option Int
  logs : List String
deriving DecidableEq, Repr

/-- One iteration of the poll loop: the elapsed wall-clock seconds at this poll
(the loop sleeps 10 seconds between polls) and the answer of
`get_runner_status`; `none` models an unreachable runtime. -/
structure PollObs where
  elapsed : ℚ
  report : Option RunnerReport
deriving DecidableEq, Repr

/-- The dictionary `_monitor_task_execution` returns, as a record; fields the
respective return path does not set keep their defaults.  `stop_issued`
records whether the path called `cancel_runner`, i.e. issued a stop to the
runtime driver. -/
structure ExecResult where
  success : Bool
  exit_code : Option Int := none
  error_message : Option String := none
  logs : Option (List String) := none
  execution_time : Option ℚ := none
  stop_issued : Bool := false
deriving DecidableEq, Repr

/-- `_monitor_task_execution` from `app/workers/task_worker.py` lines 139-239
as a function of the poll trace.  Per iteration, in source order: an absent
status ends the loop with a "Lost connection to runner" failure; a container
status of "exited" or "dead" reads the exit code (default -1) and returns
success exactly when it is 0, otherwise a failure whose message records the
exit code, in both cases with the tail logs; otherwise the heuristic progress
`min(0.9, elapsed / timeout)` is broadcast and, if `elapsed > timeout`, the
runner is cancelled and a timeout failure is returned.  The result is `none`
when the trace ends with the loop still polling, paired with the list of
broadcast heuristic progress values in order.  The `ℚ` division here is
total, whereas for `timeout_minutes = 0` the source raises ZeroDivisionError
at the progress computation, before the timeout check, and fails through the
exception path; theorems about the timeout branch therefore assume a positive
budget. -/
def monitor_task_execution (timeout_minutes : Nat) :
    List PollObs → Option ExecResult × List ℚ
  | [] => (none, [])
  | obs :: rest =>
    match obs.report with
    | none =>
        (some { success := false, error_message := some ("Lost connection to runner") }, [])
    | some rep =>
        if rep.container_status = "exited" ∨ rep.container_status = "dead" then
          let ec := rep.exit_code.getD (-1)
          if ec = 0 then
            (some { success := true, execution_time := some obs.elapsed,
                    exit_code := some ec, logs := some rep.logs }, [])
          else
            (some { success := false, execution_time := some obs.elapsed,
                    exit_code := some ec,
                    error_message := some ("Container exited with code " ++ toString ec),
                    logs := some rep.logs }, [])
        else
          let timeout : ℚ := (timeout_minutes : ℚ) * 60
          let p : ℚ := min (9/10) (obs.elapsed / timeout)
          if obs.elapsed > timeout then
            (some { success := false, execution_time := some obs.elapsed,
                    error_message :=
                      some ("Task timeout after " ++ toString (timeout_minutes * 60) ++ " seconds"),
                    stop_issued := true }, [p])
          else
            let r := monitor_task_execution timeout_minutes rest
            (r.1, p :: r.2)

/-- The final `update_task_status` call of `_execute_coding_task_async`
(`app/workers/task_worker.py` lines 86-93): status COMPLETED when the monitor
reported success and FAILED otherwise, progress 1.0 only on success (`None` —
no update — otherwise), and the monitor's error message forwarded. -/
structure TaskUpdate where
  status : TaskStatus
  progress : Option ℚ
  error_message : Option String
deriving DecidableEq, Repr

/-- Builds the final task update from the monitor result, following
`final_status = TaskStatus.COMPLETED if execution_result["success"] else
TaskStatus.FAILED` and `progress=1.0 if execution_result["success"] else None`. -/
def final_task_update (r : ExecResult) : TaskUpdate :=
  { status := if r.success then TaskStatus.completed else TaskStatus.failed
    progress := if r.success then some 1 else none
    error_message := r.error_message }

/-- All numeric progress values broadcast during one run of
`_execute_coding_task_async`: the fixed 0.1 of the start broadcast (line 66),
then the heuristic per-poll values from the monitor, then the final broadcast,
whose progress is 1.0 on success and `None` (hence no numeric value) on
failure (line 102). -/
def progress_events (timeout_minutes : Nat) (trace : List PollObs) : List ℚ :=
  let r := monitor_task_execution timeout_minutes trace
  (1/10) :: (r.2 ++ (match r.1 with
    | some res => if res.success then [1] else []
    | none => []))

/-- A poll at which the monitoring loop keeps going: the runtime answered, the
container is neither "exited" nor "dead", and the elapsed time is within the
timeout budget. -/
def keeps_polling (timeout_minutes : Nat) (o : PollObs) : Bool :=
  match o.report with
  | none => false
  | some rep =>
      decide (¬(rep.container_status = "exited" ∨ rep.container_status = "dead")) &&
        decide (o.elapsed ≤ (timeout_minutes : ℚ) * 60)

/-- The heuristic progress value the monitor broadcasts for one poll. -/
def heuristic_progress (timeout_minutes : Nat) (o : PollObs) : ℚ :=
  min (9/10) (o.elapsed / ((timeout_minutes : ℚ) * 60))

/-- Retries allowed by the decorator `@celery_app.task(bind=True,
name="execute_coding_task", max_retries=3)` in `app/workers/task_worker.py`. -/
def max_retries : Nat := 3

/-- The backoff computed at `app/workers/task_worker.py` line 49:
`countdown = 60 * (2 ** self.request.retries)`. -/
def retry_countdown (retries : Nat) : Nat := 60 * 2 ^ retries

/-- What happens to a failed execution attempt: re-enqueued after a delay, or
permanently failed. -/
inductive RetryDecision
  | reenqueue (delay : Nat)
  | permanentFailure
deriving DecidableEq, Repr

/-- Modelled from the spec: the retry gate of the Celery framework invoked by
`raise self.retry(countdown=..., exc=exc)` — the framework is an external
collaborator, not code of this repository.  An attempt failing with the
current retry count below `max_retries` is re-enqueued after
`retry_countdown`; at or above the bound, `MaxRetriesExceededError` makes the
failure permanent. -/
def handle_failure (retries : Nat) : RetryDecision :=
  if retries < max_retries then .reenqueue (retry_countdown retries)
  else .permanentFailure

/-- The retry counter after `n` failed attempts: it starts at 0 and is
incremented by each re-enqueue; a permanent failure leaves it unchanged. -/
def retries_after : Nat → Nat
  | 0 => 0
  | n + 1 =>
      match handle_failure (retries_after n) with
      | .reenqueue _ => retries_after n + 1
      | .permanentFailure => retries_after n

/-- Outcome of one Celery execution attempt: the async implementation either
returned — the task keeps the final update already written, and nothing on
this path re-enqueues — or raised, and the retry gate decides. -/
inductive AttemptResult
  | completed (update : TaskUpdate)
  | retryDecision (d : RetryDecision)
deriving DecidableEq, Repr

/-- `execute_coding_task` from `app/workers/task_worker.py` lines 25-50: the
Celery task runs `_execute_coding_task_async`, which either returns an
execution result — the task then carries the final update of lines 86-93 and
is never re-enqueued, even when that result is a failure — or raises, in
which case lines 40-50 compute `countdown = 60 * (2 ** retries)` and call
`self.retry`, subject to the `max_retries` gate. -/
def execute_coding_task (retries : Nat) : Except String ExecResult → AttemptResult
  | .ok r => .completed (final_task_update r)
  | .error _ => .retryDecision (handle_failure retries)

/-- Behaviour of one websocket when a send is attempted: the transport layer
is an external collaborator, so it enters the model as an oracle.  A socket
whose `client_state` is not CONNECTED is skipped; a connected socket either
receives the message or raises from `send_text`. -/
inductive WsBehavior
  | notConnected
  | delivers
  | raisesOnSend
deriving DecidableEq, Repr

/-- The mutable state of `ConnectionManager` (`app/websocket/manager.py`
lines 24-38): user id → connection set, task id → subscriber set, session id
→ subscriber set, websocket → metadata (of which only the `user_id` entry
matters to the verified operations).  Dictionaries become association lists
(first entry wins) and Python sets become duplicate-free lists; websockets
are identified by naturals. -/
structure ManagerState where
  active_connections : List (String × List Nat)
  task_subscriptions : List (String × List String)
  session_subscriptions : List (String × List String)
  connection_metadata : List (Nat × String)
deriving DecidableEq, Repr

/-- Dictionary lookup on an association list. -/
def alGet {α β : Type} [BEq α] (k : α) (m : List (α × β)) : Option β :=
  (m.find? (fun e => e.1 == k)).map Prod.snd

/-- Dictionary `del` on an association list. -/
def alRemove {α β : Type} [BEq α] (k : α) : List (α × β) → List (α × β)
  | [] => []
  | e :: m => if e.1 == k then alRemove k m else e :: alRemove k m

/-- In-place overwrite of the value stored under a key. -/
def alUpdate {α β : Type} [BEq α] (k : α) (v : β) : List (α × β) → List (α × β)
  | [] => []
  | e :: m => if e.1 == k then (e.1, v) :: alUpdate k v m else e :: alUpdate k v m

/-- The loop `for topic in list(subs): subs[topic].discard(user); if not
subs[topic]: del subs[topic]` that `ConnectionManager.disconnect` runs over a
subscription dictionary. -/
def removeUserEverywhere (u : String) (subs : List (String × List String)) :
    List (String × List String) :=
  (subs.map (fun e => (e.1, e.2.erase u))).filter (fun e => !e.2.isEmpty)

/-- `ConnectionManager.disconnect` (`manager.py` lines 68-98): look up the
socket's user in the metadata; if present, drop the socket from that user's
connection set (deleting the entry when it empties) and discard the user from
every task and session subscription; finally pop the socket's metadata. -/
def disconnect (ws : Nat) (st : ManagerState) : ManagerState :=
  match alGet ws st.connection_metadata with
  | none => { st with connection_metadata := alRemove ws st.connection_metadata }
  | some u =>
      let conns :=
        match alGet u st.active_connections with
        | none => st.active_connections
        | some cs =>
            let cs2 := cs.erase ws
            if cs2.isEmpty then alRemove u st.active_connections
            else alUpdate u cs2 st.active_connections
      { active_connections := conns
        task_subscriptions := removeUserEverywhere u st.task_subscriptions
        session_subscriptions := removeUserEverywhere u st.session_subscriptions
        connection_metadata := alRemove ws st.connection_metadata }

/-- `ConnectionManager.send_personal_message` (`manager.py` lines 100-107):
a socket that is not CONNECTED is skipped; a send that raises triggers
`self.disconnect(websocket)` — automatic unsubscription, never a retry; a
successful send delivers the message to that socket. -/
def send_personal_message (env : Nat → WsBehavior) (ws : Nat) (st : ManagerState) :
    ManagerState × List Nat :=
  match env ws with
  | .notConnected => (st, [])
  | .delivers => (st, [ws])
  | .raisesOnSend => (disconnect ws st, [])

/-- One iteration of a delivery loop: run the inner send on the current state
and append whatever it delivered. -/
def accStep {α : Type} (f : ManagerState → α → ManagerState × List Nat)
    (acc : ManagerState × List Nat) (a : α) : ManagerState × List Nat :=
  ((f acc.1 a).1, acc.2 ++ (f acc.1 a).2)

/-- `ConnectionManager.send_user_message` (`manager.py` lines 109-115):
iterate over a copy of the user's connection set, sending to each socket. -/
def send_user_message (env : Nat → WsBehavior) (u : String) (st : ManagerState) :
    ManagerState × List Nat :=
  match alGet u st.active_connections with
  | none => (st, [])
  | some conns =>
      conns.foldl (accStep (fun st2 ws => send_personal_message env ws st2)) (st, [])

/-- `ConnectionManager.broadcast_task_update` (`manager.py` lines 117-130):
a topic with no subscription entry is a no-op; otherwise the update goes to a
copy of the subscriber set, user by user.  The second component collects the
sockets that received the message. -/
def broadcast_task_update (env : Nat → WsBehavior) (task_id : String)
    (st : ManagerState) : ManagerState × List Nat :=
  match alGet task_id st.task_subscriptions with
  | none => (st, [])
  | some subs =>
      subs.foldl (accStep (fun st2 u => send_user_message env u st2)) (st, [])

/-- Well-formedness of the connection registry, as Python's dict/set
semantics guarantee: each connection set is duplicate-free and each socket in
a user's set carries that user in its metadata. -/
def ConnsWF (st : ManagerState) : Prop :=
  ∀ u cs, alGet u st.active_connections = some cs →
    cs.Nodup ∧ ∀ ws ∈ cs, alGet ws st.connection_metadata = some u

/-- Well-formedness of a subscription dictionary: every subscriber set is
duplicate-free. -/
def SubsWF (subs : List (String × List String)) : Prop :=
  ∀ e ∈ subs, e.2.Nodup

/-- The user is in no subscriber set of the dictionary. -/
def NotSub (u : String) (subs : List (String × List String)) : Prop :=
  ∀ e ∈ subs, u ∉ e.2

/-- Lookup into a cons cell of an association list. -/
theorem alGet_cons {α β : Type} [BEq α] (e : α × β) (m : List (α × β)) (k : α) :
    alGet k (e :: m) = if e.1 == k then some e.2 else alGet k m := by
  cases h : e.1 == k <;> simp [alGet, List.find?_cons, h]

/-- Removing a key makes its lookup fail. -/
theorem alGet_alRemove_self {α β : Type} [BEq α] [LawfulBEq α] (k : α)
    (m : List (α × β)) : alGet k (alRemove k m) = none := by
  induction m with
  | nil => rfl
  | cons e m ih =>
      by_cases h : e.1 = k
      · simpa [alRemove, h] using ih
      · simpa [alRemove, h, alGet_cons] using ih

/-- Removing another key leaves a lookup unchanged. -/
theorem alGet_alRemove_ne {α β : Type} [BEq α] [LawfulBEq α] {k k2 : α}
    (h : k ≠ k2) (m : List (α × β)) : alGet k (alRemove k2 m) = alGet k m := by
  induction m with
  | nil => rfl
  | cons e m ih =>
      by_cases h2 : e.1 = k2
      · have h3 : (k2 == k) = false := by
          simp only [beq_eq_false_iff_ne, ne_eq]
          exact fun q => h q.symm
        have h4 : (e.1 == k) = false := by
          rw [h2]
          exact h3
        simp [alRemove, h2, alGet_cons, h3, h4, ih]
      · simp [alRemove, h2, alGet_cons, ih]

/-- Overwriting another key leaves a lookup unchanged. -/
theorem alGet_alUpdate_ne {α β : Type} [BEq α] [LawfulBEq α] {k k2 : α}
    (h : k ≠ k2) (v : β) (m : List (α × β)) :
    alGet k (alUpdate k2 v m) = alGet k m := by
  induction m with
  | nil => rfl
  | cons e m ih =>
      by_cases h2 : e.1 = k2
      · have h3 : (k2 == k) = false := by
          simp only [beq_eq_false_iff_ne, ne_eq]
          exact fun q => h q.symm
        have h4 : (e.1 == k) = false := by
          rw [h2]
          exact h3
        simp [alUpdate, h2, alGet_cons, h3, h4, ih]
      · simp [alUpdate, h2, alGet_cons, ih]

/-- Overwriting a key rewrites exactly the value its lookup returns, when the
key is present. -/
theorem alGet_alUpdate_self {α β : Type} [BEq α] [LawfulBEq α] (k : α) (v : β)
    (m : List (α × β)) :
    alGet k (alUpdate k v m) = (alGet k m).map (fun _ => v) := by
  induction m with
  | nil => rfl
  | cons e m ih =>
      by_cases h2 : e.1 = k
      · simp [alUpdate, alGet_cons, h2]
      · simp [alUpdate, alGet_cons, h2, ih]

/-- A successful lookup comes from an entry of the list. -/
theorem alGet_mem {α β : Type} [BEq α] [LawfulBEq α] {k : α} {v : β}
    {m : List (α × β)} (h : alGet k m = some v) : (k, v) ∈ m := by
  simp only [alGet, Option.map_eq_some'] at h
  obtain ⟨e, he, hv⟩ := h
  have h1 := List.find?_some he
  have h2 := List.mem_of_find?_eq_some he
  simp only [beq_iff_eq] at h1
  rw [← h1, ← hv]
  exact h2

/-- A nonempty list is not `isEmpty`. -/
theorem isEmpty_false_of_mem {α : Type} {a : α} {l : List α} (h : a ∈ l) :
    l.isEmpty = false := by
  cases l with
  | nil => cases h
  | cons b l => rfl

/-- `disconnect` always pops exactly the socket's metadata entry. -/
theorem disconnect_metadata (ws : Nat) (st : ManagerState) :
    (disconnect ws st).connection_metadata = alRemove ws st.connection_metadata := by
  rcases h : alGet ws st.connection_metadata with _ | u <;> simp [disconnect, h]

/-- `disconnect` either keeps the task subscriptions or discards one user from
all of them. -/
theorem disconnect_tasks (ws : Nat) (st : ManagerState) :
    (disconnect ws st).task_subscriptions = st.task_subscriptions ∨
    ∃ u, alGet ws st.connection_metadata = some u ∧
      (disconnect ws st).task_subscriptions =
        removeUserEverywhere u st.task_subscriptions := by
  rcases h : alGet ws st.connection_metadata with _ | u
  · exact Or.inl (by simp [disconnect, h])
  · exact Or.inr ⟨u, rfl, by simp [disconnect, h]⟩

/-- Disconnecting a socket that does not belong to `v` leaves the lookup of
`v`'s connection set unchanged. -/
theorem disconnect_active_frame {v : String} {ws : Nat} (st : ManagerState)
    (h : alGet ws st.connection_metadata ≠ some v) :
    alGet v (disconnect ws st).active_connections = alGet v st.active_connections := by
  rcases hm : alGet ws st.connection_metadata with _ | u
  · simp [disconnect, hm]
  · have hne : v ≠ u := by
      rintro rfl
      exact h hm
    simp only [disconnect, hm]
    rcases hA : alGet u st.active_connections with _ | cs
    · simp [hA]
    · by_cases he : (cs.erase ws).isEmpty
      · simp [hA, he, alGet_alRemove_ne hne]
      · simp [hA, he, alGet_alUpdate_ne hne]

/-- Every entry surviving `removeUserEverywhere` is an erased version of an
original entry. -/
theorem removeUserEverywhere_mem {u : String} {subs : List (String × List String)}
    {e : String × List String} (h : e ∈ removeUserEverywhere u subs) :
    ∃ e0 ∈ subs, e.1 = e0.1 ∧ e.2 = e0.2.erase u := by
  simp only [removeUserEverywhere, List.mem_filter, List.mem_map] at h
  obtain ⟨⟨e0, he0, hmap⟩, _⟩ := h
  exact ⟨e0, he0, by rw [← hmap], by rw [← hmap]⟩

/-- `removeUserEverywhere` keeps every subscriber set duplicate-free. -/
theorem removeUserEverywhere_subswf {u : String} {subs : List (String × List String)}
    (h : SubsWF subs) : SubsWF (removeUserEverywhere u subs) := by
  intro e he
  obtain ⟨e0, he0, _, h2⟩ := removeUserEverywhere_mem he
  rw [h2]
  exact (h e0 he0).erase u

/-- Discarding a user removes it from every (duplicate-free) subscriber set. -/
theorem removeUserEverywhere_self_notsub {u : String}
    {subs : List (String × List String)} (h : SubsWF subs) :
    NotSub u (removeUserEverywhere u subs) := by
  intro e he
  obtain ⟨e0, he0, _, h2⟩ := removeUserEverywhere_mem he
  rw [h2]
  exact (h e0 he0).not_mem_erase

/-- A user absent from every subscriber set stays absent after any discard. -/
theorem removeUserEverywhere_notsub {u u0 : String}
    {subs : List (String × List String)} (h : NotSub u subs) :
    NotSub u (removeUserEverywhere u0 subs) := by
  intro e he hu
  obtain ⟨e0, he0, _, h2⟩ := removeUserEverywhere_mem he
  rw [h2] at hu
  exact h e0 he0 (List.mem_of_mem_erase hu)

/-- The connection registry stays well formed across a disconnect. -/
theorem disconnect_connswf {st : ManagerState} (h : ConnsWF st) (ws : Nat) :
    ConnsWF (disconnect ws st) := by
  intro u cs hcs
  have hmeta := disconnect_metadata ws st
  rcases hm : alGet ws st.connection_metadata with _ | u0
  · have hact : (disconnect ws st).active_connections = st.active_connections := by
      simp [disconnect, hm]
    rw [hact] at hcs
    obtain ⟨hnd, hmem⟩ := h u cs hcs
    refine ⟨hnd, ?_⟩
    intro x hx
    have hx2 := hmem x hx
    have hne : x ≠ ws := by
      rintro rfl
      rw [hm] at hx2
      simp at hx2
    rw [hmeta, alGet_alRemove_ne hne]
    exact hx2
  · rcases hA : alGet u0 st.active_connections with _ | cs0
    · have hact : (disconnect ws st).active_connections = st.active_connections := by
        simp [disconnect, hm, hA]
      rw [hact] at hcs
      obtain ⟨hnd, hmem⟩ := h u cs hcs
      refine ⟨hnd, ?_⟩
      intro x hx
      have hx2 := hmem x hx
      have hne : x ≠ ws := by
        rintro rfl
        rw [hm] at hx2
        have hx3 : u0 = u := by
          simpa using hx2
        rw [hx3] at hA
        rw [hA] at hcs
        cases hcs
      rw [hmeta, alGet_alRemove_ne hne]
      exact hx2
    · obtain ⟨hnd0, hmem0⟩ := h u0 cs0 hA
      by_cases he : (cs0.erase ws).isEmpty = true
      · have hact : (disconnect ws st).active_connections =
            alRemove u0 st.active_connections := by
          simp [disconnect, hm, hA, he]
        rw [hact] at hcs
        have hneu : u ≠ u0 := by
          rintro rfl
          rw [alGet_alRemove_self] at hcs
          cases hcs
        rw [alGet_alRemove_ne hneu] at hcs
        obtain ⟨hnd, hmem⟩ := h u cs hcs
        refine ⟨hnd, ?_⟩
        intro x hx
        have hx2 := hmem x hx
        have hne : x ≠ ws := by
          rintro rfl
          rw [hm] at hx2
          have hx3 : u0 = u := by
            simpa using hx2
          exact hneu hx3.symm
        rw [hmeta, alGet_alRemove_ne hne]
        exact hx2
      · have hact : (disconnect ws st).active_connections =
            alUpdate u0 (cs0.erase ws) st.active_connections := by
          simp [disconnect, hm, hA, he]
        rw [hact] at hcs
        by_cases hneu : u = u0
        · subst hneu
          rw [alGet_alUpdate_self, hA, Option.map_some'] at hcs
          have hcs2 : cs0.erase ws = cs := by
            injection hcs
          subst hcs2
          refine ⟨hnd0.erase ws, ?_⟩
          intro x hx
          obtain ⟨hxne, hxmem⟩ := hnd0.mem_erase_iff.mp hx
          rw [hmeta, alGet_alRemove_ne hxne]
          exact hmem0 x hxmem
        · rw [alGet_alUpdate_ne hneu] at hcs
          obtain ⟨hnd, hmem⟩ := h u cs hcs
          refine ⟨hnd, ?_⟩
          intro x hx
          have hx2 := hmem x hx
          have hne : x ≠ ws := by
            rintro rfl
            rw [hm] at hx2
            have hx3 : u0 = u := by
              simpa using hx2
            exact hneu hx3.symm
          rw [hmeta, alGet_alRemove_ne hne]
          exact hx2

/-- Subscription sets stay duplicate-free across a disconnect. -/
theorem disconnect_subswf {st : ManagerState} (h : SubsWF st.task_subscriptions)
    (ws : Nat) : SubsWF (disconnect ws st).task_subscriptions := by
  rcases disconnect_tasks ws st with h2 | ⟨u0, _, h2⟩ <;> rw [h2]
  · exact h
  · exact removeUserEverywhere_subswf h

/-- A state predicate closed under the elements of a delivery loop survives
the whole fold. -/
theorem foldl_accStep_inv {α : Type} (f : ManagerState → α → ManagerState × List Nat)
    (P : ManagerState → Prop) (l : List α)
    (hP : ∀ st a, a ∈ l → P st → P ((f st a).1)) :
    ∀ p : ManagerState × List Nat, P p.1 → P ((l.foldl (accStep f) p).1) := by
  induction l with
  | nil => exact fun p h => h
  | cons a l ih =>
      intro p h
      simp only [List.foldl_cons]
      exact ih (fun st b hb h2 => hP st b (List.mem_cons_of_mem _ hb) h2) _
        (hP p.1 a (List.mem_cons_self _ _) h)

/-- A delivery loop only ever appends to the delivered accumulator. -/
theorem foldl_accStep_acc {α : Type} (f : ManagerState → α → ManagerState × List Nat)
    (l : List α) :
    ∀ p : ManagerState × List Nat, ∃ extra, (l.foldl (accStep f) p).2 = p.2 ++ extra := by
  induction l with
  | nil => exact fun p => ⟨[], by simp⟩
  | cons a l ih =>
      intro p
      simp only [List.foldl_cons]
      obtain ⟨extra, hx⟩ := ih (accStep f p a)
      refine ⟨(f p.1 a).2 ++ extra, ?_⟩
      rw [hx]
      simp [accStep]

/-- Safety of the healthy observer `v`: its connection set is intact and
every socket carrying `v` in the metadata delivers. -/
def VSafe (env : Nat → WsBehavior) (v : String) (csV : List Nat)
    (st : ManagerState) : Prop :=
  alGet v st.active_connections = some csV ∧
  ∀ x, alGet x st.connection_metadata = some v → env x = WsBehavior.delivers

/-- Safety of the observer `u` holding the dead socket `w`: the socket is
still registered under `u`, and the registry is well formed. -/
def USafe (u : String) (w : Nat)
    (st : ManagerState) : Prop :=
  (∃ cs, alGet u st.active_connections = some cs ∧ w ∈ cs) ∧
  alGet w st.connection_metadata = some u ∧
  ConnsWF st ∧ SubsWF st.task_subscriptions

/-- `VSafe` survives every individual send. -/
theorem vsafe_step (env : Nat → WsBehavior) (v : String) (csV : List Nat)
    (ws : Nat) {st : ManagerState} (h : VSafe env v csV st) :
    VSafe env v csV ((send_personal_message env ws st).1) := by
  rcases henv : env ws with _ | _ | _
  · simpa [send_personal_message, henv] using h
  · simpa [send_personal_message, henv] using h
  · simp only [send_personal_message, henv]
    have hnev : alGet ws st.connection_metadata ≠ some v := by
      intro hx
      rw [h.2 ws hx] at henv
      cases henv
    constructor
    · rw [disconnect_active_frame st hnev]
      exact h.1
    · intro x hx
      rw [disconnect_metadata] at hx
      by_cases hxw : x = ws
      · subst hxw
        rw [alGet_alRemove_self] at hx
        cases hx
      · rw [alGet_alRemove_ne hxw] at hx
        exact h.2 x hx

/-- `USafe` survives every individual send to a socket other than `w`. -/
theorem usafe_step (env : Nat → WsBehavior) (u : String) (w : Nat)
    (ws : Nat) (hnw : ws ≠ w) {st : ManagerState} (h : USafe u w st) :
    USafe u w ((send_personal_message env ws st).1) := by
  obtain ⟨⟨cs, hcs, hwcs⟩, hwm, hwf, hswf⟩ := h
  rcases henv : env ws with _ | _ | _
  · simpa [send_personal_message, henv] using ⟨⟨cs, hcs, hwcs⟩, hwm, hwf, hswf⟩
  · simpa [send_personal_message, henv] using ⟨⟨cs, hcs, hwcs⟩, hwm, hwf, hswf⟩
  · simp only [send_personal_message, henv]
    have hwne : w ≠ ws := fun q => hnw q.symm
    refine ⟨?_, ?_, disconnect_connswf hwf ws, disconnect_subswf hswf ws⟩
    · rcases hm : alGet ws st.connection_metadata with _ | u2
      · refine ⟨cs, ?_, hwcs⟩
        have hact : (disconnect ws st).active_connections = st.active_connections := by
          simp [disconnect, hm]
        rw [hact]
        exact hcs
      · by_cases hu2 : u2 = u
        · subst hu2
          have hnd := (hwf u2 cs hcs).1
          have hwin : w ∈ cs.erase ws := (List.mem_erase_of_ne hwne).mpr hwcs
          have hne2 : (cs.erase ws).isEmpty = false := isEmpty_false_of_mem hwin
          have hact : (disconnect ws st).active_connections =
              alUpdate u2 (cs.erase ws) st.active_connections := by
            simp [disconnect, hm, hcs, hne2]
          refine ⟨cs.erase ws, ?_, hwin⟩
          rw [hact, alGet_alUpdate_self, hcs, Option.map_some']
        · refine ⟨cs, ?_, hwcs⟩
          have hnev : alGet ws st.connection_metadata ≠ some u := by
            rw [hm]
            intro hx
            have : u2 = u := by
              simpa using hx
            exact hu2 this
          rw [disconnect_active_frame st hnev]
          exact hcs
    · rw [disconnect_metadata, alGet_alRemove_ne hwne]
      exact hwm

/-- Absence from every subscriber set survives every individual send. -/
theorem notsub_step (env : Nat → WsBehavior) (u : String) (ws : Nat)
    {st : ManagerState} (h : NotSub u st.task_subscriptions) :
    NotSub u ((send_personal_message env ws st).1.task_subscriptions) := by
  rcases henv : env ws with _ | _ | _
  · simpa [send_personal_message, henv] using h
  · simpa [send_personal_message, henv] using h
  · simp only [send_personal_message, henv]
    rcases disconnect_tasks ws st with h2 | ⟨u0, _, h2⟩ <;> rw [h2]
    · exact h
    · exact removeUserEverywhere_notsub h

/-- `VSafe` survives sending to any user. -/
theorem vsafe_send_user (env : Nat → WsBehavior) (v : String) (csV : List Nat)
    (u2 : String) {st : ManagerState} (h : VSafe env v csV st) :
    VSafe env v csV ((send_user_message env u2 st).1) := by
  rcases hA : alGet u2 st.active_connections with _ | conns
  · simpa [send_user_message, hA] using h
  · simp only [send_user_message, hA]
    exact foldl_accStep_inv _ (VSafe env v csV) conns
      (fun st2 a _ h2 => vsafe_step env v csV a h2) (st, []) h

/-- Absence from every subscriber set survives sending to any user. -/
theorem notsub_send_user (env : Nat → WsBehavior) (u u2 : String)
    {st : ManagerState} (h : NotSub u st.task_subscriptions) :
    NotSub u ((send_user_message env u2 st).1.task_subscriptions) := by
  rcases hA : alGet u2 st.active_connections with _ | conns
  · simpa [send_user_message, hA] using h
  · simp only [send_user_message, hA]
    exact foldl_accStep_inv _ (fun s => NotSub u s.task_subscriptions) conns
      (fun st2 a _ h2 => notsub_step env u a h2) (st, []) h

/-- `USafe` survives sending to any user other than `u`. -/
theorem usafe_send_user (env : Nat → WsBehavior) (u : String) (w : Nat)
    (u2 : String) (hne : u2 ≠ u) {st : ManagerState} (h : USafe u w st) :
    USafe u w ((send_user_message env u2 st).1) := by
  rcases hA : alGet u2 st.active_connections with _ | conns
  · simpa [send_user_message, hA] using h
  · simp only [send_user_message, hA]
    have hwout : ∀ ws ∈ conns, ws ≠ w := by
      intro ws hws heq
      rw [heq] at hws
      have hwf2 := h.2.2.1 u2 conns hA
      have hx := hwf2.2 w hws
      rw [h.2.1] at hx
      have hq : u = u2 := by
        simpa using hx
      exact hne hq.symm
    exact foldl_accStep_inv _ (USafe u w) conns
      (fun st2 a ha h2 => usafe_step env u w a (hwout a ha) h2) (st, []) h

/-- Sending to a user all of whose sockets deliver changes nothing and
delivers to exactly those sockets, in order. -/
theorem send_user_all_delivers (env : Nat → WsBehavior) (v : String)
    {st : ManagerState} {csV : List Nat}
    (hcs : alGet v st.active_connections = some csV)
    (hdel : ∀ x ∈ csV, env x = WsBehavior.delivers) :
    send_user_message env v st = (st, csV) := by
  simp only [send_user_message, hcs]
  suffices h : ∀ (l : List Nat), (∀ x ∈ l, env x = WsBehavior.delivers) →
      ∀ (st2 : ManagerState) (acc : List Nat),
        l.foldl (accStep (fun s ws => send_personal_message env ws s)) (st2, acc) =
          (st2, acc ++ l) by
    simpa using h csV hdel st []
  intro l
  induction l with
  | nil =>
      intro _ st2 acc
      simp
  | cons a l ih =>
      intro hl st2 acc
      simp only [List.foldl_cons]
      have hstep : accStep (fun s ws => send_personal_message env ws s) (st2, acc) a =
          (st2, acc ++ [a]) := by
        simp [accStep, send_personal_message, hl a (List.mem_cons_self _ _)]
      rw [hstep, ih (fun x hx => hl x (List.mem_cons_of_mem _ hx)) st2 (acc ++ [a])]
      simp

/-- Disconnecting the dead socket of `u` while `u`'s registry entry is sound
unsubscribes `u` from every topic. -/
theorem usafe_send_user_self (env : Nat → WsBehavior) (u : String) (w : Nat)
    (hfail : env w = WsBehavior.raisesOnSend) {st : ManagerState}
    (h : USafe u w st) :
    NotSub u ((send_user_message env u st).1.task_subscriptions) := by
  obtain ⟨⟨cs, hcs, hwcs⟩, hwm, hwf, hswf⟩ := h
  simp only [send_user_message, hcs]
  obtain ⟨l1, l2, rfl⟩ := List.append_of_mem hwcs
  have hnd := (hwf u (l1 ++ w :: l2) hcs).1
  have hw1 : w ∉ l1 := by
    intro hmem
    have hdisj := (List.nodup_append.mp hnd).2.2
    exact hdisj hmem (List.mem_cons_self _ _)
  rw [List.foldl_append]
  set p1 := l1.foldl (accStep (fun s ws => send_personal_message env ws s)) (st, []) with hp1
  have husafe1 : USafe u w p1.1 := by
    refine foldl_accStep_inv _ (USafe u w) l1 ?_ (st, []) ⟨⟨_, hcs, hwcs⟩, hwm, hwf, hswf⟩
    intro st2 a ha h2
    exact usafe_step env u w a (fun q => hw1 (q ▸ ha)) h2
  simp only [List.foldl_cons, accStep, send_personal_message, hfail]
  have hnot : NotSub u ((disconnect w p1.1).task_subscriptions) := by
    have htasks : (disconnect w p1.1).task_subscriptions =
        removeUserEverywhere u p1.1.task_subscriptions := by
      simp [disconnect, husafe1.2.1]
    rw [htasks]
    exact removeUserEverywhere_self_notsub husafe1.2.2.2
  exact foldl_accStep_inv _ (fun s => NotSub u s.task_subscriptions) l2
    (fun st2 a _ h2 => notsub_step env u a h2) _ hnot

/-- Lookup in the empty association list. -/
theorem alGet_nil {α β : Type} [BEq α] (k : α) : alGet k ([] : List (α × β)) = none :=
  rfl

/-- Claim C9: publishing to a topic with no subscription entry is a no-op that
raises nothing and changes no state; and when delivery to one subscriber's
socket raises, that subscriber is automatically unsubscribed from every topic
— never retried — while every other subscriber of the topic whose sockets all
deliver still receives the message on each of its sockets. -/
theorem broadcast_no_subscribers_and_failed_delivery
    (env : Nat → WsBehavior) (t : String) (st : ManagerState) (subs : List String)
    (u v : String) (w : Nat) (csU csV : List Nat)
    (hsubs : alGet t st.task_subscriptions = some subs)
    (hwf : ConnsWF st) (hswf : SubsWF st.task_subscriptions)
    (hu : u ∈ subs) (hv : v ∈ subs)
    (hcsu : alGet u st.active_connections = some csU) (hw : w ∈ csU)
    (hfail : env w = WsBehavior.raisesOnSend)
    (hcsv : alGet v st.active_connections = some csV)
    (hvdel : ∀ x ∈ csV, env x = WsBehavior.delivers)
    (hvmeta : ∀ x, alGet x st.connection_metadata = some v →
      env x = WsBehavior.delivers) :
    (∀ (env2 : Nat → WsBehavior) (t2 : String) (st2 : ManagerState),
        alGet t2 st2.task_subscriptions = none →
          broadcast_task_update env2 t2 st2 = (st2, [])) ∧
    (∀ x ∈ csV, x ∈ (broadcast_task_update env t st).2) ∧
    (∀ t2 l, alGet t2 (broadcast_task_update env t st).1.task_subscriptions = some l →
        u ∉ l) := by
  refine ⟨?_, ?_, ?_⟩
  · intro env2 t2 st2 hnone
    simp [broadcast_task_update, hnone]
  · have main : ∀ (l : List String) (p : ManagerState × List Nat),
        v ∈ l → VSafe env v csV p.1 → ∀ x ∈ csV,
          x ∈ ((l.foldl (accStep (fun st2 u2 => send_user_message env u2 st2)) p).2) := by
      intro l
      induction l with
      | nil =>
          intro p hm
          simp at hm
      | cons a l ih =>
          intro p hm hvs x hx
          simp only [List.foldl_cons]
          by_cases ha : a = v
          · subst ha
            have hstep : accStep (fun st2 u2 => send_user_message env u2 st2) p a =
                (p.1, p.2 ++ csV) := by
              simp [accStep, send_user_all_delivers env a hvs.1 hvdel]
            rw [hstep]
            obtain ⟨extra, hx2⟩ := foldl_accStep_acc _ l (p.1, p.2 ++ csV)
            rw [hx2]
            simp only [List.mem_append]
            exact Or.inl (Or.inr hx)
          · have hm2 : v ∈ l := by
              rcases List.mem_cons.mp hm with h9 | h9
              · exact absurd h9.symm ha
              · exact h9
            refine ih (accStep _ p a) hm2 ?_ x hx
            show VSafe env v csV ((send_user_message env a p.1).1)
            exact vsafe_send_user env v csV a hvs
    intro x hx
    simp only [broadcast_task_update, hsubs]
    exact main subs (st, []) hv ⟨hcsv, hvmeta⟩ x hx
  · have main2 : ∀ (l : List String) (p : ManagerState × List Nat),
        u ∈ l → USafe u w p.1 →
        NotSub u
          (ManagerState.task_subscriptions
            ((l.foldl (accStep (fun st2 u2 => send_user_message env u2 st2)) p).1)) := by
      intro l
      induction l with
      | nil =>
          intro p hm
          simp at hm
      | cons a l ih =>
          intro p hm hus
          simp only [List.foldl_cons]
          by_cases ha : a = u
          · subst ha
            have hnot : NotSub a ((send_user_message env a p.1).1.task_subscriptions) :=
              usafe_send_user_self env a w hfail hus
            exact foldl_accStep_inv _ (fun s => NotSub a s.task_subscriptions) l
              (fun st2 b _ h2 => notsub_send_user env a b h2) (accStep _ p a) hnot
          · have hm2 : u ∈ l := by
              rcases List.mem_cons.mp hm with h9 | h9
              · exact absurd h9.symm ha
              · exact h9
            refine ih (accStep _ p a) hm2 ?_
            show USafe u w ((send_user_message env a p.1).1)
            exact usafe_send_user env u w a ha hus
    intro t2 l hget
    have hn : NotSub u ((broadcast_task_update env t st).1.task_subscriptions) := by
      simp only [broadcast_task_update, hsubs]
      exact main2 subs (st, []) hu
        ⟨⟨csU, hcsu, hw⟩, (hwf u csU hcsu).2 w hw, hwf, hswf⟩
    exact hn (t2, l) (alGet_mem hget)

/-- Concrete transport environment for the C9 witness: socket 1 raises on
send, every other socket delivers. -/
def envW : Nat → WsBehavior :=
  fun ws => if ws = 1 then WsBehavior.raisesOnSend else WsBehavior.delivers

/-- Concrete manager state for the C9 witness: user "u1" with dead socket 1
and user "u2" with live socket 2, both subscribed to topic "t1". -/
def stW : ManagerState :=
  { active_connections := [("u1", [1]), ("u2", [2])]
    task_subscriptions := [("t1", ["u1", "u2"])]
    session_subscriptions := []
    connection_metadata := [(1, "u1"), (2, "u2")] }

/-- Witness for the C9 theorem at the concrete two-subscriber state. -/
theorem broadcast_no_subscribers_and_failed_delivery_witness :
    (∀ (env2 : Nat → WsBehavior) (t2 : String) (st2 : ManagerState),
        alGet t2 st2.task_subscriptions = none →
          broadcast_task_update env2 t2 st2 = (st2, [])) ∧
    (∀ x ∈ [2], x ∈ (broadcast_task_update envW ("t1") stW).2) ∧
    (∀ t2 l, alGet t2 (broadcast_task_update envW ("t1") stW).1.task_subscriptions =
        some l → ("u1" : String) ∉ l) :=
  broadcast_no_subscribers_and_failed_delivery envW ("t1") stW ["u1", "u2"]
    ("u1") ("u2") 1 [1] [2]
    rfl
    (by
      intro u cs h
      simp only [show stW.active_connections = [("u1", [1]), ("u2", [2])] from rfl,
        alGet_cons, alGet_nil] at h
      by_cases hc1 : u = "u1"
      · subst hc1
        simp only [beq_self_eq_true, if_true] at h
        have hcs : cs = [1] := by
          simpa using h.symm
        subst hcs
        refine ⟨by simp, ?_⟩
        intro ws hws
        simp only [List.mem_singleton] at hws
        subst hws
        rfl
      · by_cases hc2 : u = "u2"
        · subst hc2
          have d1 : (("u1" : String) == "u2") = false := by decide
          simp only [d1, Bool.false_eq_true, if_false, beq_self_eq_true, if_true] at h
          have hcs : cs = [2] := by
            simpa using h.symm
          subst hcs
          refine ⟨by simp, ?_⟩
          intro ws hws
          simp only [List.mem_singleton] at hws
          subst hws
          rfl
        · have d1 : (("u1" : String) == u) = false :=
            beq_eq_false_iff_ne.mpr (fun q => hc1 q.symm)
          have d2 : (("u2" : String) == u) = false :=
            beq_eq_false_iff_ne.mpr (fun q => hc2 q.symm)
          simp only [d1, d2, Bool.false_eq_true, if_false] at h
          simp at h)
    (by
      intro e he
      simp only [show stW.task_subscriptions = [("t1", ["u1", "u2"])] from rfl,
        List.mem_singleton] at he
      subst he
      simp)
    (by simp)
    (by simp)
    rfl
    (by simp)
    rfl
    rfl
    (by
      intro x hx
      simp only [List.mem_singleton] at hx
      subst hx
      rfl)
    (by
      intro x hx
      simp only [show stW.connection_metadata = [(1, "u1"), (2, "u2")] from rfl,
        alGet_cons, alGet_nil] at hx
      by_cases h1 : x = 1
      · subst h1
        simp at hx
      · by_cases h2 : x = 2
        · subst h2
          rfl
        · have d1 : ((1 : Nat) == x) = false :=
            beq_eq_false_iff_ne.mpr (fun q => h1 q.symm)
          have d2 : ((2 : Nat) == x) = false :=
            beq_eq_false_iff_ne.mpr (fun q => h2 q.symm)
          simp only [d1, d2, Bool.false_eq_true, if_false] at hx
          simp at hx)

/-- Polls that keep the loop going contribute exactly their heuristic progress
value and leave the rest of the run unchanged. -/
theorem monitor_keeps_append (tm : Nat) (pre l : List PollObs)
    (h : ∀ o ∈ pre, keeps_polling tm o = true) :
    monitor_task_execution tm (pre ++ l) =
      ((monitor_task_execution tm l).1,
        pre.map (heuristic_progress tm) ++ (monitor_task_execution tm l).2) := by
  induction pre with
  | nil => simp
  | cons o pre ih =>
      obtain ⟨e, rep?⟩ := o
      have ho := h _ (List.mem_cons_self _ _)
      cases rep? with
      | none => simp [keeps_polling] at ho
      | some rep =>
          simp only [keeps_polling, Bool.and_eq_true, decide_eq_true_eq] at ho
          obtain ⟨hrun, hle⟩ := ho
          have hrest : ∀ x ∈ pre, keeps_polling tm x = true := by
            intro x hx
            exact h x (List.mem_cons_of_mem _ hx)
          simp only [List.cons_append, monitor_task_execution, if_neg hrun,
            if_neg (not_lt.mpr hle), heuristic_progress, List.map_cons,
            List.cons_append]
          rw [show pre.append l = pre ++ l from rfl, ih hrest]

/-- Every heuristic progress value the monitor broadcasts belongs to a poll of
the trace at which the runtime answered. -/
theorem monitor_progress_mem (tm : Nat) (trace : List PollObs) (p : ℚ)
    (hp : p ∈ (monitor_task_execution tm trace).2) :
    ∃ o ∈ trace, o.report ≠ none ∧ p = heuristic_progress tm o := by
  induction trace with
  | nil => simp [monitor_task_execution] at hp
  | cons o rest ih =>
      obtain ⟨e, rep?⟩ := o
      cases rep? with
      | none => simp [monitor_task_execution] at hp
      | some rep =>
          by_cases hterm : rep.container_status = "exited" ∨ rep.container_status = "dead"
          · rw [show (monitor_task_execution tm (⟨e, some rep⟩ :: rest)).2 = [] by
              simp only [monitor_task_execution, if_pos hterm]
              split <;> rfl] at hp
            simp at hp
          · by_cases hto : e > (tm : ℚ) * 60
            · rw [show (monitor_task_execution tm (⟨e, some rep⟩ :: rest)).2 =
                  [min (9/10) (e / ((tm : ℚ) * 60))] by
                simp only [monitor_task_execution, if_neg hterm, if_pos hto]] at hp
              refine ⟨⟨e, some rep⟩, List.mem_cons_self _ _, by simp, ?_⟩
              simpa [heuristic_progress] using hp
            · rw [show (monitor_task_execution tm (⟨e, some rep⟩ :: rest)).2 =
                  min (9/10) (e / ((tm : ℚ) * 60)) :: (monitor_task_execution tm rest).2 by
                simp only [monitor_task_execution, if_neg hterm, if_neg hto]] at hp
              rcases List.mem_cons.mp hp with hq | hq
              · exact ⟨⟨e, some rep⟩, List.mem_cons_self _ _, by simp,
                  by simpa [heuristic_progress] using hq⟩
              · obtain ⟨x, hx, hx2, hx3⟩ := ih hq
                exact ⟨x, List.mem_cons_of_mem _ hx, hx2, hx3⟩

/-- The broadcast heuristic progress values are the image of an initial
segment of the trace under `heuristic_progress`. -/
theorem monitor_progress_take (tm : Nat) (trace : List PollObs) :
    ∃ m, (monitor_task_execution tm trace).2 =
      (trace.take m).map (heuristic_progress tm) := by
  induction trace with
  | nil => exact ⟨0, by simp [monitor_task_execution]⟩
  | cons o rest ih =>
      obtain ⟨e, rep?⟩ := o
      cases rep? with
      | none => exact ⟨0, by simp [monitor_task_execution]⟩
      | some rep =>
          by_cases hterm : rep.container_status = "exited" ∨ rep.container_status = "dead"
          · refine ⟨0, ?_⟩
            simp only [monitor_task_execution, if_pos hterm, List.take_zero, List.map_nil]
            split <;> rfl
          · by_cases hto : e > (tm : ℚ) * 60
            · exact ⟨1, by
                simp only [monitor_task_execution, if_neg hterm, if_pos hto,
                  List.take_succ_cons, List.take_zero, List.map_cons, List.map_nil,
                  heuristic_progress]⟩
            · obtain ⟨m, hm⟩ := ih
              exact ⟨m + 1, by
                simp only [monitor_task_execution, if_neg hterm, if_neg hto,
                  List.take_succ_cons, List.map_cons, heuristic_progress, hm]⟩

/-- Claim C1 counterexample: `stop_session` on a session whose status is
already terminal (COMPLETED) does not leave the status unchanged — the row
comes back CANCELLED with a fresh `completed_at`, and the call reports
success. -/
theorem stop_session_cancels_completed_counterexample :
    (stop_session 200 (some ⟨SessionStatus.completed, some ("c1"), some 100, 3, 3⟩)
        ("s1") [("s1")]).session =
      some ⟨SessionStatus.cancelled, some ("c1"), some 200, 3, 3⟩ ∧
    (stop_session 200 (some ⟨SessionStatus.completed, some ("c1"), some 100, 3, 3⟩)
        ("s1") [("s1")]).ok = true ∧
    SessionStatus.completed.is_finished = true ∧
    SessionStatus.cancelled ≠ SessionStatus.completed :=
  ⟨rfl, rfl, rfl, by decide⟩

/-- Claim C1 (amended): `stop_session` cancels every session it finds,
regardless of the current status — terminal statuses included — stamping
`completed_at` and returning True; only a session id resolving to no row
leaves everything unchanged, returning False. -/
theorem stop_session_unconditional_cancel (now : ℚ) (s : SessionRec)
    (sid : String) (act : List String) :
    ((stop_session now (some s) sid act).session =
        some { s with status := SessionStatus.cancelled, completed_at := some now } ∧
      (stop_session now (some s) sid act).ok = true) ∧
    ((stop_session now none sid act).session = none ∧
      (stop_session now none sid act).active_sessions = act ∧
      (stop_session now none sid act).ok = false) :=
  ⟨⟨rfl, rfl⟩, rfl, rfl, rfl⟩

/-- Claim C3 counterexample: `stop_session` realises the status change
COMPLETED → CANCELLED, a transition out of a terminal state that the claimed
relation does not contain. -/
theorem terminal_cancel_transition_counterexample :
    (stop_session 300 (some ⟨SessionStatus.completed, none, some 100, 0, 0⟩)
        ("s2") []).session.map SessionRec.status = some SessionStatus.cancelled ∧
    claimedTransition SessionStatus.completed SessionStatus.cancelled = false :=
  ⟨rfl, rfl⟩

/-- Claim C3 (amended): the status universe is exactly the six members of
`SessionStatus`, and the status change `stop_session` performs always lands in
the claimed relation extended with cancellation from any state — the code also
cancels sessions that are already terminal. -/
theorem session_transitions_amended :
    (∀ s : SessionStatus, s = SessionStatus.initializing ∨ s = SessionStatus.running ∨
      s = SessionStatus.completed ∨ s = SessionStatus.failed ∨
      s = SessionStatus.cancelled ∨ s = SessionStatus.timeout) ∧
    (∀ (now : ℚ) (s : SessionRec) (sid : String) (act : List String) (s2 : SessionRec),
      (stop_session now (some s) sid act).session = some s2 →
        amendedTransition s.status s2.status = true) := by
  constructor
  · intro s
    cases s <;> simp
  · intro now s sid act s2 h
    have hs2 : s2 = { s with status := SessionStatus.cancelled, completed_at := some now } := by
      simpa [stop_session] using h.symm
    rw [hs2]
    simp [amendedTransition]

/-- Witness for the amended C3 theorem at a concrete terminal session. -/
theorem session_transitions_amended_witness :
    amendedTransition SessionStatus.timeout SessionStatus.cancelled = true :=
  session_transitions_amended.2 0 ⟨SessionStatus.timeout, none, none, 0, 0⟩ ("s3") []
    ⟨SessionStatus.cancelled, none, some 0, 0, 0⟩ rfl

/-- Claim C2 counterexample: with a 60-minute budget and a poll at 3700
elapsed seconds on a still-running container, the monitor stops the runner and
returns a failure; the final task update is FAILED — no Timeout status exists
on `TaskStatus`, and the session is never assigned `SessionStatus.timeout`. -/
theorem timeout_marks_failed_counterexample :
    (monitor_task_execution 60 [⟨3700, some ⟨("running"), none, []⟩⟩]).1 =
      some { success := false, execution_time := some 3700,
             error_message := some ("Task timeout after 3600 seconds"),
             stop_issued := true } ∧
    final_task_update { success := false, execution_time := some 3700,
                        error_message := some ("Task timeout after 3600 seconds"),
                        stop_issued := true } =
      { status := TaskStatus.failed, progress := none,
        error_message := some ("Task timeout after 3600 seconds") } ∧
    TaskStatus.failed ≠ TaskStatus.completed := by
  refine ⟨?_, rfl, by decide⟩
  simp only [monitor_task_execution]
  rw [if_neg (by decide : ¬(("running" : String) = "exited" ∨ ("running" : String) = "dead"))]
  norm_num
  rfl

/-- Claim C2 (amended): for a positive timeout budget, whenever the elapsed
time at a poll exceeds the budget while the runtime is reachable and the
container has not terminated (earlier polls having kept the loop alive), the
monitor issues a stop to the runtime and the run ends as a failure carrying
the timeout message, so the final task status is FAILED — never a Timeout
status.  At a zero budget the source instead raises ZeroDivisionError at the
progress computation, before the timeout check, and fails through the
exception path. -/
theorem monitor_timeout_stops_and_marks_failed (tm : Nat) (htm : 0 < tm)
    (pre rest : List PollObs)
    (o : PollObs) (rep : RunnerReport)
    (hpre : ∀ x ∈ pre, keeps_polling tm x = true)
    (hrep : o.report = some rep)
    (hrun : ¬(rep.container_status = "exited" ∨ rep.container_status = "dead"))
    (hto : (tm : ℚ) * 60 < o.elapsed) :
    ∃ r, (monitor_task_execution tm (pre ++ o :: rest)).1 = some r ∧
      r.stop_issued = true ∧ r.success = false ∧
      r.error_message =
        some ("Task timeout after " ++ toString (tm * 60) ++ " seconds") ∧
      (final_task_update r).status = TaskStatus.failed := by
  refine ⟨{ success := false, execution_time := some o.elapsed,
            error_message :=
              some ("Task timeout after " ++ toString (tm * 60) ++ " seconds"),
            stop_issued := true }, ?_, rfl, rfl, rfl, rfl⟩
  rw [monitor_keeps_append tm pre (o :: rest) hpre]
  simp only [monitor_task_execution, hrep, if_neg hrun, if_pos hto]

/-- Witness for the amended C2 theorem at a concrete over-budget poll. -/
theorem monitor_timeout_stops_and_marks_failed_witness :
    ∃ r, (monitor_task_execution 60
        ([] ++ (⟨3700, some ⟨("running"), none, []⟩⟩ : PollObs) :: [])).1 = some r ∧
      r.stop_issued = true ∧ r.success = false ∧
      r.error_message =
        some ("Task timeout after " ++ toString (60 * 60) ++ " seconds") ∧
      (final_task_update r).status = TaskStatus.failed :=
  monitor_timeout_stops_and_marks_failed 60 (by decide) [] []
    ⟨3700, some ⟨("running"), none, []⟩⟩
    ⟨("running"), none, []⟩ (by simp) rfl (by decide)
    (by show ((60 : Nat) : ℚ) * 60 < 3700; norm_num)

/-- Claim C4: when the runtime reports the container terminated ("exited" or
"dead"), the monitor reads the exit code (default -1 when absent); exit code 0
yields success and a final task status of COMPLETED, and any non-zero exit
code yields a failure whose error message records that exit code, with the
tail logs captured, and a final task status of FAILED. -/
theorem monitor_exit_code_decides_outcome (tm : Nat) (pre rest : List PollObs)
    (o : PollObs) (rep : RunnerReport)
    (hpre : ∀ x ∈ pre, keeps_polling tm x = true)
    (hrep : o.report = some rep)
    (hterm : rep.container_status = "exited" ∨ rep.container_status = "dead") :
    ∃ r, (monitor_task_execution tm (pre ++ o :: rest)).1 = some r ∧
      r.exit_code = some (rep.exit_code.getD (-1)) ∧
      r.logs = some rep.logs ∧
      (r.success = true ↔ rep.exit_code.getD (-1) = 0) ∧
      (rep.exit_code.getD (-1) = 0 →
        (final_task_update r).status = TaskStatus.completed) ∧
      (rep.exit_code.getD (-1) ≠ 0 →
        (final_task_update r).status = TaskStatus.failed ∧
        r.error_message =
          some ("Container exited with code " ++ toString (rep.exit_code.getD (-1)))) := by
  rw [monitor_keeps_append tm pre (o :: rest) hpre]
  by_cases h0 : rep.exit_code.getD (-1) = 0
  · refine ⟨{ success := true, execution_time := some o.elapsed,
              exit_code := some (rep.exit_code.getD (-1)), logs := some rep.logs },
      ?_, rfl, rfl, by simp [h0], fun _ => rfl, fun hne => absurd h0 hne⟩
    simp only [monitor_task_execution, hrep, if_pos hterm, if_pos h0]
  · refine ⟨{ success := false, execution_time := some o.elapsed,
              exit_code := some (rep.exit_code.getD (-1)),
              error_message :=
                some ("Container exited with code " ++ toString (rep.exit_code.getD (-1))),
              logs := some rep.logs },
      ?_, rfl, rfl, by simp [h0], fun h => absurd h h0, fun _ => ⟨rfl, rfl⟩⟩
    simp only [monitor_task_execution, hrep, if_pos hterm, if_neg h0]

/-- Witness for the C4 theorem at a concrete terminated poll with exit code 2. -/
theorem monitor_exit_code_decides_outcome_witness :
    ∃ r, (monitor_task_execution 60
        ([] ++ (⟨20, some ⟨("exited"), some 2, [("x"), ("y")]⟩⟩ : PollObs) :: [])).1 = some r ∧
      r.exit_code = some ((some (2 : Int)).getD (-1)) ∧
      r.logs = some [("x"), ("y")] ∧
      (r.success = true ↔ (some (2 : Int)).getD (-1) = 0) ∧
      ((some (2 : Int)).getD (-1) = 0 →
        (final_task_update r).status = TaskStatus.completed) ∧
      ((some (2 : Int)).getD (-1) ≠ 0 →
        (final_task_update r).status = TaskStatus.failed ∧
        r.error_message =
          some ("Container exited with code " ++ toString ((some (2 : Int)).getD (-1)))) :=
  monitor_exit_code_decides_outcome 60 [] [] ⟨20, some ⟨("exited"), some 2, [("x"), ("y")]⟩⟩
    ⟨("exited"), some 2, [("x"), ("y")]⟩ (by simp) rfl (Or.inl rfl)

/-- Claim C6 counterexample: a single poll at which the status query returns
nothing immediately ends the run with a failure — the monitor does not keep
polling through unreachable polls. -/
theorem single_unreachable_poll_counterexample :
    (monitor_task_execution 60 [⟨10, none⟩]).1 =
      some { success := false, error_message := some ("Lost connection to runner") } ∧
    (final_task_update { success := false,
                         error_message := some ("Lost connection to runner") }).status =
      TaskStatus.failed :=
  ⟨rfl, rfl⟩

/-- Claim C6 (amended): the first poll whose status query returns nothing ends
monitoring at once with a "Lost connection to runner" failure, so the task is
marked FAILED after a single unreachable poll — there is no bounded local
retry. -/
theorem monitor_unreachable_fails_immediately (tm : Nat) (pre rest : List PollObs)
    (o : PollObs) (hpre : ∀ x ∈ pre, keeps_polling tm x = true)
    (hnone : o.report = none) :
    (monitor_task_execution tm (pre ++ o :: rest)).1 =
      some { success := false, error_message := some ("Lost connection to runner") } ∧
    (final_task_update { success := false,
                         error_message := some ("Lost connection to runner") }).status =
      TaskStatus.failed := by
  refine ⟨?_, rfl⟩
  rw [monitor_keeps_append tm pre (o :: rest) hpre]
  simp only [monitor_task_execution, hnone]

/-- Witness for the amended C6 theorem: one healthy poll, then an unreachable
one. -/
theorem monitor_unreachable_fails_immediately_witness :
    (monitor_task_execution 60
        ([(⟨10, some ⟨("running"), none, []⟩⟩ : PollObs)] ++ (⟨20, none⟩ : PollObs) :: [])).1 =
      some { success := false, error_message := some ("Lost connection to runner") } ∧
    (final_task_update { success := false,
                         error_message := some ("Lost connection to runner") }).status =
      TaskStatus.failed :=
  monitor_unreachable_fails_immediately 60 [⟨10, some ⟨("running"), none, []⟩⟩] []
    ⟨20, none⟩
    (by
      intro x hx
      simp only [List.mem_singleton] at hx
      subst hx
      simp only [keeps_polling, Bool.and_eq_true, decide_eq_true_eq]
      exact ⟨by decide, by show (10 : ℚ) ≤ ((60 : Nat) : ℚ) * 60; norm_num⟩)
    rfl

/-- Claim C8: every heuristic progress value the monitor broadcasts equals
`min(0.9, elapsed / timeout)` for the elapsed time of some reachable poll of
the run, and hence never exceeds 0.9 before completion. -/
theorem monitor_heuristic_progress_formula (tm : Nat) (trace : List PollObs) (p : ℚ)
    (hp : p ∈ (monitor_task_execution tm trace).2) :
    (∃ o ∈ trace, o.report ≠ none ∧
      p = min (9/10) (o.elapsed / ((tm : ℚ) * 60))) ∧ p ≤ 9/10 := by
  obtain ⟨o, ho, hrep, hpe⟩ := monitor_progress_mem tm trace p hp
  refine ⟨⟨o, ho, hrep, by simpa [heuristic_progress] using hpe⟩, ?_⟩
  rw [hpe, heuristic_progress]
  exact min_le_left _ _

/-- Witness for the C8 theorem: the single in-budget poll at 10 seconds with a
60-minute budget broadcasts exactly 1/360. -/
theorem monitor_heuristic_progress_formula_witness :
    ((1 : ℚ)/360 ∈
        (monitor_task_execution 60 [⟨10, some ⟨("running"), none, []⟩⟩]).2) ∧
    (∃ o ∈ [(⟨10, some ⟨("running"), none, []⟩⟩ : PollObs)], o.report ≠ none ∧
      (1 : ℚ)/360 = min (9/10) (o.elapsed / ((60 : ℚ) * 60))) ∧ (1 : ℚ)/360 ≤ 9/10 := by
  have hmem : ((1 : ℚ)/360 ∈
      (monitor_task_execution 60 [⟨10, some ⟨("running"), none, []⟩⟩]).2) := by
    simp only [monitor_task_execution]
    rw [if_neg (by decide : ¬(("running" : String) = "exited" ∨ ("running" : String) = "dead"))]
    rw [if_neg (by show ¬((10 : ℚ) > ((60 : Nat) : ℚ) * 60); norm_num)]
    norm_num
  exact ⟨hmem, monitor_heuristic_progress_formula 60 _ _ hmem⟩

/-- Claim C5 counterexample: a failed execution attempt detected by the
monitor — the container exited with code 2 — at retry count 0, below
`max_retries`, is not re-enqueued: the Celery task returns normally and the
task is marked FAILED permanently, never reaching the retry gate. -/
theorem monitor_failure_not_retried_counterexample :
    (0 : Nat) < max_retries ∧
    (monitor_task_execution 60 [⟨20, some ⟨("exited"), some 2, []⟩⟩]).1 =
      some { success := false, execution_time := some 20, exit_code := some 2,
             error_message := some ("Container exited with code 2"),
             logs := some [] } ∧
    execute_coding_task 0
        (Except.ok { success := false, execution_time := some 20, exit_code := some 2,
                     error_message := some ("Container exited with code 2"),
                     logs := some [] }) =
      AttemptResult.completed { status := TaskStatus.failed, progress := none,
                                error_message := some ("Container exited with code 2") } ∧
    AttemptResult.completed { status := TaskStatus.failed, progress := none,
                              error_message := some ("Container exited with code 2") } ≠
      AttemptResult.retryDecision (RetryDecision.reenqueue (60 * 2 ^ 0)) := by
  refine ⟨by decide, rfl, rfl, by simp⟩

/-- Claim C5 (amended): only attempts that fail by raising an exception are
re-enqueued — while the retry count is below `max_retries`, with backoff
`60 * 2 ^ retry_count`, which never exceeds 240 seconds; at or above
`max_retries` the failure is permanent; the retry counter never exceeds
`max_retries`.  An attempt whose monitor result is a failure (non-zero exit,
timeout, lost runner) returns normally: the task keeps the final FAILED
update and is never re-enqueued. -/
theorem retry_backoff_policy :
    (∀ (retries : Nat) (r : ExecResult),
      execute_coding_task retries (Except.ok r) =
        AttemptResult.completed (final_task_update r)) ∧
    (∀ (retries : Nat) (e : String), retries < max_retries →
      execute_coding_task retries (Except.error e) =
        AttemptResult.retryDecision (RetryDecision.reenqueue (60 * 2 ^ retries)) ∧
      60 * 2 ^ retries ≤ 240) ∧
    (∀ (retries : Nat) (e : String), max_retries ≤ retries →
      execute_coding_task retries (Except.error e) =
        AttemptResult.retryDecision RetryDecision.permanentFailure) ∧
    (∀ n, retries_after n ≤ max_retries) := by
  refine ⟨fun retries r => rfl, ?_, ?_, ?_⟩
  · intro retries e hr
    refine ⟨by simp [execute_coding_task, handle_failure, hr, retry_countdown], ?_⟩
    have hr2 : retries ≤ 2 := by
      simp only [max_retries] at hr
      omega
    calc 60 * 2 ^ retries ≤ 60 * 2 ^ 2 :=
          Nat.mul_le_mul_left 60 (Nat.pow_le_pow_right (by norm_num) hr2)
      _ = 240 := rfl
  · intro retries e hr
    simp [execute_coding_task, handle_failure, Nat.not_lt.mpr hr]
  · intro n
    induction n with
    | zero => simp [retries_after, max_retries]
    | succ n ih =>
        by_cases h : retries_after n < max_retries
        · simp only [retries_after, handle_failure, if_pos h]
          exact h
        · simp only [retries_after, handle_failure, if_neg h]
          exact ih

/-- Witness for the amended C5 theorem: a clean success, the last retryable
exception, and the first permanently-failing one. -/
theorem retry_backoff_policy_witness :
    execute_coding_task 1 (Except.ok { success := true }) =
      AttemptResult.completed { status := TaskStatus.completed, progress := some 1,
                                error_message := none } ∧
    (2 < max_retries ∧
      execute_coding_task 2 (Except.error ("boom")) =
        AttemptResult.retryDecision (RetryDecision.reenqueue (60 * 2 ^ 2)) ∧
      60 * 2 ^ 2 ≤ 240) ∧
    (max_retries ≤ 3 ∧
      execute_coding_task 3 (Except.error ("boom")) =
        AttemptResult.retryDecision RetryDecision.permanentFailure) ∧
    retries_after 5 ≤ max_retries :=
  ⟨retry_backoff_policy.1 1 { success := true },
   ⟨by decide, retry_backoff_policy.2.1 2 ("boom") (by decide)⟩,
   ⟨by decide, retry_backoff_policy.2.2.1 3 ("boom") (by decide)⟩,
   retry_backoff_policy.2.2.2 5⟩

/-- Claim C7 counterexample: in a run with the default 60-minute budget whose
first poll happens 10 seconds in (the loop sleeps 10 seconds before each
poll), the broadcast progress sequence starts with the fixed 0.1 start value
and then drops to 1/360 before the terminal state — progress is not
monotonically non-decreasing. -/
theorem progress_dip_counterexample :
    progress_events 60 [⟨10, some ⟨("running"), none, []⟩⟩,
        ⟨20, some ⟨("exited"), some 0, []⟩⟩] = [1/10, 1/360, 1] ∧
    ((1 : ℚ)/360 < 1/10) := by
  constructor
  · simp only [progress_events, monitor_task_execution]
    rw [if_neg (by decide : ¬(("running" : String) = "exited" ∨ ("running" : String) = "dead"))]
    rw [if_neg (by show ¬((10 : ℚ) > ((60 : Nat) : ℚ) * 60); norm_num)]
    norm_num
  · norm_num

/-- Claim C7 (amended): under a positive timeout budget and polls with
non-negative, non-decreasing elapsed times, every broadcast progress value
lies in [0,1]; the heuristic per-poll values are non-decreasing among
themselves; and the value 1.0 is broadcast exactly when the run ends with the
final task status COMPLETED.  The full broadcast sequence, however, begins
with the fixed 0.1 start value, which can exceed the first heuristic value,
so it need not be monotone (see the counterexample). -/
theorem progress_range_completion_monotone (tm : Nat) (trace : List PollObs)
    (htm : 0 < tm) (hel : ∀ o ∈ trace, 0 ≤ o.elapsed)
    (hchain : trace.Chain' (fun a b => a.elapsed ≤ b.elapsed)) :
    (∀ p ∈ progress_events tm trace, 0 ≤ p ∧ p ≤ 1) ∧
    ((1 : ℚ) ∈ progress_events tm trace ↔
      ∃ r, (monitor_task_execution tm trace).1 = some r ∧
        (final_task_update r).status = TaskStatus.completed) ∧
    List.Chain' (· ≤ ·) (monitor_task_execution tm trace).2 := by
  have htpos : (0 : ℚ) < (tm : ℚ) * 60 := by
    have h1 : (0 : ℚ) < (tm : ℚ) := by exact_mod_cast htm
    linarith
  have hbound : ∀ p ∈ (monitor_task_execution tm trace).2, 0 ≤ p ∧ p ≤ 9/10 := by
    intro p hp
    obtain ⟨o, ho, _, hpe⟩ := monitor_progress_mem tm trace p hp
    rw [hpe, heuristic_progress]
    exact ⟨le_min (by norm_num) (div_nonneg (hel o ho) htpos.le), min_le_left _ _⟩
  refine ⟨?_, ⟨?_, ?_⟩, ?_⟩
  · intro p hp
    simp only [progress_events, List.mem_cons, List.mem_append] at hp
    rcases hp with hp | hp | hp
    · rw [hp]
      norm_num
    · obtain ⟨h1, h2⟩ := hbound p hp
      exact ⟨h1, by linarith⟩
    · rcases hm : (monitor_task_execution tm trace).1 with _ | r
      · rw [hm] at hp
        simp at hp
      · rw [hm] at hp
        rcases hs : r.success with _ | _
        · simp [hs] at hp
        · simp [hs] at hp
          rw [hp]
          norm_num
  · intro h1
    simp only [progress_events, List.mem_cons, List.mem_append] at h1
    rcases h1 with h1 | h1 | h1
    · norm_num at h1
    · have := (hbound 1 h1).2
      norm_num at this
    · rcases hm : (monitor_task_execution tm trace).1 with _ | r
      · rw [hm] at h1
        simp at h1
      · rw [hm] at h1
        rcases hs : r.success with _ | _
        · simp [hs] at h1
        · exact ⟨r, rfl, by simp [final_task_update, hs]⟩
  · rintro ⟨r, hm, hstat⟩
    have hs : r.success = true := by
      rcases h : r.success with _ | _
      · rw [final_task_update, h] at hstat
        simp at hstat
      · rfl
    simp [progress_events, hm, hs]
  · obtain ⟨m, hm2⟩ := monitor_progress_take tm trace
    rw [hm2, List.chain'_map]
    refine List.Chain'.imp ?_ (hchain.take m)
    intro a b hab
    simp only [heuristic_progress]
    exact min_le_min le_rfl ((div_le_div_iff_of_pos_right htpos).mpr hab)

/-- Witness for the amended C7 theorem on a concrete successful run. -/
theorem progress_range_completion_monotone_witness :
    (∀ p ∈ progress_events 60 [(⟨10, some ⟨("running"), none, []⟩⟩ : PollObs)], 0 ≤ p ∧ p ≤ 1) ∧
    ((1 : ℚ) ∈ progress_events 60 [(⟨10, some ⟨("running"), none, []⟩⟩ : PollObs)] ↔
      ∃ r, (monitor_task_execution 60 [(⟨10, some ⟨("running"), none, []⟩⟩ : PollObs)]).1 = some r ∧
        (final_task_update r).status = TaskStatus.completed) ∧
    List.Chain' (· ≤ ·) (monitor_task_execution 60 [(⟨10, some ⟨("running"), none, []⟩⟩ : PollObs)]).2 :=
  progress_range_completion_monotone 60 [⟨10, some ⟨("running"), none, []⟩⟩]
    (by decide)
    (by
      intro o ho
      simp only [List.mem_singleton] at ho
      subst ho
      norm_num)
    (by simp)

/-- Claim C10: `success_rate` is total — the division is never invoked with a
zero divisor: the result is always defined, 0 when `total_steps = 0` and
`completed_steps / total_steps` otherwise. -/
theorem success_rate_total (s : SessionRec) :
    s.success_rate =
      some (if s.total_steps = 0 then 0 else (s.completed_steps : ℚ) / s.total_steps) := by
  by_cases h : s.total_steps = 0
  · simp [SessionRec.success_rate, h]
  · have hz : ((s.total_steps : ℚ)) ≠ 0 := Nat.cast_ne_zero.mpr h
    simp [SessionRec.success_rate, pydiv, h, hz]

end AutoCodit
